import Mathlib

/-!
Verification of the server-side camouflage handshake layer
(`internal/server/TLS.go` of beyond-far/Cloak).

The Go source is shallowly embedded: byte buffers become `List Nat`
(each element a byte value), Go's multiple return values become pairs,
`panic`/`recover` around slice accesses becomes explicit bounds checks
producing the corresponding recovered error value, and the external
collaborators (the `ecdh` package, `util.AESGCMEncrypt`, `touchStone`,
the replay state and the network connection) are modelled as explicit
parameters, following the collaborator contracts in the specification.
-/

namespace Cloak

/-- Error values of the handshake core.  Each constructor corresponds to a
distinct `error` value created in `TLS.go` (or, for `errInvalidPubKey` /
`errCiphertextLength`, referenced there and defined in the authentication
module); `external` stands for opaque errors produced by collaborators. -/
inductive Err where
  | malformedClientHello
  | wrongMagic
  | notClientHello
  | lengthMismatch
  | malformedExtensions
  | malformedKeyShare
  | keyShareLength (n : Nat)
  | x25519Missing
  | errInvalidPubKey
  | errCiphertextLength (n : Nat)
  | errBadClientHello
  | errReplay
  | errNotCloak
  | errBadProxyMethod
  | external (n : Nat)
deriving DecidableEq, Repr

/-- Big-endian decoding of two bytes, as `binary.BigEndian.Uint16` applied to
a 2-byte slice (`u16` in TLS.go). -/
def be2 (l : List Nat) : Nat := 256 * l.getD 0 0 + l.getD 1 0

/-- Big-endian decoding of `append([]byte{0x00}, b3...)` via
`binary.BigEndian.Uint32` (`u32` in TLS.go), i.e. of three bytes. -/
def be3 (l : List Nat) : Nat := 65536 * l.getD 0 0 + 256 * l.getD 1 0 + l.getD 2 0

/-- The extensions mapping `map[[2]byte][]byte` of TLS.go. -/
def ExtMap : Type := (Nat × Nat) → Option (List Nat)

/-- The empty Go map. -/
def emptyExts : ExtMap := fun _ => none

/-- Go map assignment `ret[typ] = data` (later assignments overwrite). -/
def insertExt (m : ExtMap) (k : Nat × Nat) (v : List Nat) : ExtMap :=
  fun k' => if k' = k then some v else m k'

/-- Loop of `parseExtensions` in TLS.go: repeatedly read
`{2-byte type, 2-byte length, payload}` triples until the region is
exhausted; any out-of-bounds slice access is recovered into the
`Malformed Extensions` error.  The loop consumes at least four bytes per
iteration, so it is expressed structurally over a `fuel` counter that
`parseExtensions` initializes to the region length; the fuel-exhaustion
arm is unreachable whenever `l.length ≤ fuel`. -/
def parseExtensionsLoop (m : ExtMap) : Nat → List Nat → Except Err ExtMap
  | _, [] => .ok m
  | fuel + 1, t1 :: t2 :: l1 :: l2 :: rest =>
      let len := 256 * l1 + l2
      if len ≤ rest.length then
        parseExtensionsLoop (insertExt m (t1, t2) (rest.take len)) fuel
          (rest.drop len)
      else .error .malformedExtensions
  | _, _ => .error .malformedExtensions

/-- `parseExtensions` of TLS.go. -/
def parseExtensions (input : List Nat) : Except Err ExtMap :=
  parseExtensionsLoop emptyExts input.length input

/-- Loop of `parseKeyShare` in TLS.go: `pointer` starts at 2 and the loop
runs while `pointer < totalLen` (the declared sub-list length); each slice
access is bounds-checked against the actual buffer, an overrun being
recovered into the `malformed key_share` error.  The pointer advances by
at least four per iteration, so the loop is expressed structurally over a
`fuel` counter that `parseKeyShare` initializes to `totalLen`; the
fuel-exhaustion arm is unreachable whenever `totalLen - pointer ≤ fuel`. -/
def parseKeyShareLoop (input : List Nat) (totalLen : Nat) :
    Nat → Nat → Except Err (List Nat)
  | 0, pointer =>
    if pointer < totalLen then .error .malformedKeyShare
    else .error .x25519Missing
  | fuel + 1, pointer =>
    if pointer < totalLen then
      if pointer + 2 ≤ input.length then
        if (input.drop pointer).take 2 = [0x00, 0x1d] then
          if pointer + 4 ≤ input.length then
            let len := be2 ((input.drop (pointer + 2)).take 2)
            if len ≠ 32 then .error (.keyShareLength len)
            else if pointer + 4 + len ≤ input.length then
              .ok ((input.drop (pointer + 4)).take len)
            else .error .malformedKeyShare
          else .error .malformedKeyShare
        else
          if pointer + 4 ≤ input.length then
            let len := be2 ((input.drop (pointer + 2)).take 2)
            if pointer + 4 + len ≤ input.length then
              parseKeyShareLoop input totalLen fuel (pointer + 4 + len)
            else .error .malformedKeyShare
          else .error .malformedKeyShare
      else .error .malformedKeyShare
    else .error .x25519Missing

/-- `parseKeyShare` of TLS.go: the first two bytes are the declared
sub-list length; scanning {group-id, length, payload} entries, on a match
of group `0x001d` the payload must have length 32. -/
def parseKeyShare (input : List Nat) : Except Err (List Nat) :=
  if 2 ≤ input.length then
    parseKeyShareLoop input (be2 (input.take 2)) (be2 (input.take 2)) 2
  else .error .malformedKeyShare

/-- `ClientHello` record of TLS.go, with the same fields. -/
structure ClientHello where
  handshakeType : Nat
  length : Nat
  clientVersion : List Nat
  random : List Nat
  sessionIdLen : Nat
  sessionId : List Nat
  cipherSuitesLen : Nat
  cipherSuites : List Nat
  compressionMethodsLen : Nat
  compressionMethods : List Nat
  extensionsLen : Nat
  extensions : ExtMap

/-- The fixed record-layer magic checked on the first three input bytes. -/
def chMagic : List Nat := [0x16, 0x03, 0x01]

/-- Stage of `parseClientHello` after the compression-methods length has
been read: consume the compression methods, the 2-byte extensions length,
and hand the rest to `parseExtensions`.  Offsets are relative to the start
of `peeled` (the buffer with the 5-byte record header stripped). -/
def parseCHAfterCm (peeled : List Nat) (sidLen csLen cmLen : Nat) :
    Except Err ClientHello :=
  if peeled.length < 42 + sidLen + csLen + cmLen then .error .malformedClientHello
  else if peeled.length < 44 + sidLen + csLen + cmLen then .error .malformedClientHello
  else
    match parseExtensions (peeled.drop (44 + sidLen + csLen + cmLen)) with
    | .error e => .error e
    | .ok exts =>
        .ok { handshakeType := 1
              length := be3 ((peeled.drop 1).take 3)
              clientVersion := (peeled.drop 4).take 2
              random := (peeled.drop 6).take 32
              sessionIdLen := sidLen
              sessionId := (peeled.drop 39).take sidLen
              cipherSuitesLen := csLen
              cipherSuites := (peeled.drop (41 + sidLen)).take csLen
              compressionMethodsLen := cmLen
              compressionMethods := (peeled.drop (42 + sidLen + csLen)).take cmLen
              extensionsLen := be2 ((peeled.drop (42 + sidLen + csLen + cmLen)).take 2)
              extensions := exts }

/-- Stage of `parseClientHello` after the cipher-suite-list length has
been read: consume the cipher suites and the 1-byte compression-methods
length. -/
def parseCHAfterCs (peeled : List Nat) (sidLen csLen : Nat) :
    Except Err ClientHello :=
  if peeled.length < 41 + sidLen + csLen then .error .malformedClientHello
  else if peeled.length < 42 + sidLen + csLen then .error .malformedClientHello
  else parseCHAfterCm peeled sidLen csLen (peeled.getD (41 + sidLen + csLen) 0)

/-- Stage of `parseClientHello` after the session-id length has been
read: consume the session id and the 2-byte cipher-suite-list length. -/
def parseCHAfterSid (peeled : List Nat) (sidLen : Nat) : Except Err ClientHello :=
  if peeled.length < 39 + sidLen then .error .malformedClientHello
  else if peeled.length < 41 + sidLen then .error .malformedClientHello
  else parseCHAfterCs peeled sidLen (be2 ((peeled.drop (39 + sidLen)).take 2))

/-- Body of `parseClientHello` on the peeled buffer (record header
stripped): message type, 3-byte declared length (which must equal the
remaining byte count), version, random and the variable-length fields. -/
def parseCHBody (peeled : List Nat) : Except Err ClientHello :=
  if peeled.length < 1 then .error .malformedClientHello
  else if peeled.getD 0 0 ≠ 1 then .error .notClientHello
  else if peeled.length < 4 then .error .malformedClientHello
  else if be3 ((peeled.drop 1).take 3) ≠ peeled.length - 4 then .error .lengthMismatch
  else if peeled.length < 6 then .error .malformedClientHello
  else if peeled.length < 38 then .error .malformedClientHello
  else if peeled.length < 39 then .error .malformedClientHello
  else parseCHAfterSid peeled (peeled.getD 38 0)

/-- `parseClientHello` of TLS.go.  Every Go slice access
`peeled[a:b]` / `peeled[i]` is guarded by the bound the Go runtime would
enforce; an overrun panics and is recovered into the
`Malformed ClientHello` error.  The explicit (non-panic) error returns of
the source keep their own error values.  The sequential reads of the
source function are split into the stages above, in source order. -/
def parseClientHello (data : List Nat) : Except Err ClientHello :=
  if data.length < 3 then .error .malformedClientHello
  else if data.take 3 ≠ chMagic then .error .wrongMagic
  else if data.length < 5 then .error .malformedClientHello
  else parseCHBody (data.drop 5)

/-- `addRecordLayer` of TLS.go: a 5-byte record header
{1-byte content type, 2-byte version, 2-byte big-endian length (as
`uint16`)} followed by the payload. -/
def addRecordLayer (input typ ver : List Nat) : List Nat :=
  typ ++ ver ++ [input.length % 65536 / 256, input.length % 256] ++ input

/-- The `authenticationInfo` value assembled by `unmarshalClientHello`
(the struct itself lives in the authentication module; the three fields
used by TLS.go are modelled).  The default value is Go's zero value
(nil slices). -/
structure authenticationInfo where
  nonce : List Nat
  sharedSecret : List Nat
  ciphertextWithTag : List Nat
deriving DecidableEq, Repr

instance : Inhabited authenticationInfo := ⟨⟨[], [], []⟩⟩

/-- Modelled from the spec: `ClientInfo` (authentication module, not part
of the TLS.go source) — the opaque verdict of the external authentication
decision service, of which the handshake core reads only the requested
proxy method (`ProxyMethod`, modelled as a number). -/
structure ClientInfo where
  proxyMethod : Nat
deriving DecidableEq, Repr

/-- The external collaborators of the handshake core, per the
specification's collaborator contracts: `ecdh.Unmarshal`,
`ecdh.GenerateSharedSecret`, `util.AESGCMEncrypt` and the authentication
decision service `touchStone` (which also receives a current-time
reference). -/
structure Externals (PubKey PrivKey : Type) where
  ecdhUnmarshal : List Nat → Option PubKey
  ecdhGenerateSharedSecret : PrivKey → PubKey → List Nat
  aesgcmEncrypt : List Nat → List Nat → List Nat → Except Err (List Nat)
  touchStone : authenticationInfo → Nat → Except Err ClientInfo

/-- Modelled from the spec: the process-wide server `State` (state.go, not
part of the TLS.go source) as far as the handshake core reads it — the
static private key, the set of previously seen 32-byte random values, the
current-time reference and the registry of enabled proxy methods. -/
structure SrvState (PrivKey : Type) where
  staticPv : PrivKey
  usedRandom : List (List Nat)
  now : Nat
  proxyBook : List Nat

/-- Modelled from the spec: `registerRandom` (state.go, not part of the
TLS.go source) — atomically check membership of the random value in the
replay set and insert it, returning `true` iff it was already present. -/
def registerRandom (sta : SrvState PrivKey) (r : List Nat) :
    Bool × SrvState PrivKey :=
  (r ∈ sta.usedRandom,
   if r ∈ sta.usedRandom then sta
   else { sta with usedRandom := r :: sta.usedRandom })

/-- `composeServerHello` of TLS.go.  The 12 random nonce bytes and the 4
random padding bytes drawn by `rand.Read` are passed as the explicit
parameters `nonce` and `pad4`; the AEAD primitive is the collaborator
parameter `aead`.  The key-exchange field copies bytes 20..47 of the
48-byte ciphertext-with-tag and fills its last four bytes with `pad4`. -/
def composeServerHello (aead : List Nat → List Nat → List Nat → Except Err (List Nat))
    (nonce pad4 sessionId sharedSecret sessionKey : List Nat) :
    Except Err (List Nat) :=
  match aead nonce sharedSecret sessionKey with
  | .error e => .error e
  | .ok encryptedKey =>
      .ok ([0x02] ++ [0x00, 0x00, 0x76] ++ [0x03, 0x03] ++
           (nonce.take 12 ++ encryptedKey.take 20) ++
           [0x20] ++ sessionId ++ [0xc0, 0x30] ++ [0x00] ++ [0x00, 0x2e] ++
           ([0x00, 0x33, 0x00, 0x24, 0x00, 0x1d, 0x00, 0x20] ++
            ((encryptedKey.drop 20).take 28 ++ pad4.take 4)) ++
           [0x00, 0x2b, 0x00, 0x02, 0x03, 0x04])

/-- `composeReply` of TLS.go: the ServerHello, ChangeCipherSpec and
fake-certificate records with their record layers, concatenated.  The 68
random certificate bytes drawn by `rand.Read` are the parameter `cert`
(always of length 68 in the source). -/
def composeReply (aead : List Nat → List Nat → List Nat → Except Err (List Nat))
    (nonce pad4 cert : List Nat) (ch : ClientHello)
    (sharedSecret sessionKey : List Nat) : Except Err (List Nat) :=
  match composeServerHello aead nonce pad4 ch.sessionId sharedSecret sessionKey with
  | .error e => .error e
  | .ok sh =>
      .ok (addRecordLayer sh [0x16] [0x03, 0x03] ++
           addRecordLayer [0x01] [0x14] [0x03, 0x03] ++
           addRecordLayer cert [0x17] [0x03, 0x03])

/-- `unmarshalClientHello` of TLS.go, with Go's named-return semantics:
the (partially) assembled `authenticationInfo` is returned together with
the optional error. -/
def unmarshalClientHello (E : Externals PubKey PrivKey) (ch : ClientHello)
    (staticPv : PrivKey) : authenticationInfo × Option Err :=
  match E.ecdhUnmarshal ch.random with
  | none => (default, some .errInvalidPubKey)
  | some ephPub =>
      let nonce := ch.random.take 12
      let sharedSecret := E.ecdhGenerateSharedSecret staticPv ephPub
      match parseKeyShare ((ch.extensions (0x00, 0x33)).getD []) with
      | .error e => (⟨nonce, sharedSecret, []⟩, some e)
      | .ok keyShare =>
          let ciphertextWithTag := ch.sessionId ++ keyShare
          if ciphertextWithTag.length ≠ 64 then
            (⟨nonce, sharedSecret, ciphertextWithTag⟩,
             some (.errCiphertextLength ciphertextWithTag.length))
          else (⟨nonce, sharedSecret, ciphertextWithTag⟩, none)

/-- The transport connection, reduced to what the handshake core does to
it: a log of the byte strings written, and whether it has been closed. -/
structure Conn where
  written : List (List Nat)
  closed : Bool
deriving DecidableEq, Repr

/-- Type of the finisher callback returned by `PrepareConnection`.
Besides the caller-chosen session key it receives the random bytes drawn
at composition time (`nonce`, `pad4`, `cert`), the outcome the transport
reports for the write, and the connection, returning the error (if any)
and the updated connection. -/
def Finisher : Type :=
  List Nat → List Nat → List Nat → List Nat → Option Err → Conn → Option Err × Conn

/-- The finisher closure built on the success path of
`PrepareConnection`: compose the reply and write it to the connection; a
write failure closes the connection and surfaces the write error. -/
def mkFinisher (E : Externals PubKey PrivKey) (ch : ClientHello)
    (sharedSecret : List Nat) : Finisher :=
  fun sessionKey nonce pad4 cert wErr conn =>
    match composeReply E.aesgcmEncrypt nonce pad4 cert ch sharedSecret sessionKey with
    | .error e => (some e, conn)
    | .ok reply =>
        match wErr with
        | some e => (some e, { conn with closed := true })
        | none => (none, { conn with written := conn.written ++ [reply] })

/-- `PrepareConnection` of TLS.go: parse, register the random value in the
replay guard, unmarshal the covert payload, consult `touchStone`, check the
proxy method against the registry, and on success hand back the verdict
together with the finisher closure.  No write to the connection happens
here; the connection is returned untouched. -/
def PrepareConnection (E : Externals PubKey PrivKey) (firstPacket : List Nat)
    (sta : SrvState PrivKey) (conn : Conn) :
    Except Err (ClientInfo × Finisher) × SrvState PrivKey × Conn :=
  match parseClientHello firstPacket with
  | .error _ => (.error .errBadClientHello, sta, conn)
  | .ok ch =>
      let reg := registerRandom sta ch.random
      if reg.1 then (.error .errReplay, reg.2, conn)
      else
        match unmarshalClientHello E ch reg.2.staticPv with
        | (_, some e) => (.error e, reg.2, conn)
        | (ai, none) =>
            match E.touchStone ai reg.2.now with
            | .error _ => (.error .errNotCloak, reg.2, conn)
            | .ok info =>
                if info.proxyMethod ∈ reg.2.proxyBook then
                  (.ok (info, mkFinisher E ch ai.sharedSecret), reg.2, conn)
                else (.error .errBadProxyMethod, reg.2, conn)

/-! ### Encoding of well-formed extension regions

Used to state the duplicate-extension behaviour of `parseExtensions`:
a region is the concatenation of `{2-byte type, 2-byte length, payload}`
entries. -/

/-- Encode one extension entry `((t1, t2), payload)` as bytes: the two
type bytes, the big-endian 16-bit payload length, then the payload. -/
def encodeExt (e : (Nat × Nat) × List Nat) : List Nat :=
  e.1.1 :: e.1.2 :: (e.2.length / 256) :: (e.2.length % 256) :: e.2

/-- Encode a list of extension entries as a region. -/
def encodeExts : List ((Nat × Nat) × List Nat) → List Nat
  | [] => []
  | e :: es => encodeExt e ++ encodeExts es

/-- The payload of the last entry with type `k` in a list of extension
entries (`none` when `k` does not occur). -/
def lastPayload (k : Nat × Nat) : List ((Nat × Nat) × List Nat) → Option (List Nat)
  | [] => none
  | e :: es =>
      match lastPayload k es with
      | some v => some v
      | none => if e.1 = k then some e.2 else none

/-! ### Concrete sample inputs

Used by the closed witness and counterexample theorems below. -/

/-- A 32-byte stand-in for the client random field. -/
def sampleRandom : List Nat := List.range 32

/-- A 32-byte session id. -/
def sampleSid32 : List Nat := List.replicate 32 7

/-- A 32-byte x25519 key-share value. -/
def sampleKS32 : List Nat := List.replicate 32 9

/-- A key_share extension payload: declared sub-list length 38, one entry
of group `0x001d` with a 32-byte key-exchange value. -/
def sampleKSPayload : List Nat := [0, 38, 0, 0x1d, 0, 32] ++ sampleKS32

/-- An extensions region holding exactly the key_share extension. -/
def sampleExtRegion : List Nat := [0, 0x33, 0, 38] ++ sampleKSPayload

/-- A well-formed disguise ClientHello packet: record magic, type 1,
consistent lengths, 32-byte session id and a key_share extension. -/
def samplePkt : List Nat :=
  [0x16, 0x03, 0x01, 0, 0] ++
  ([1, 0, 0, 117] ++ [3, 3] ++ sampleRandom ++ [32] ++ sampleSid32 ++
   [0, 2] ++ [0x13, 0x01] ++ [1] ++ [0] ++ [0, 42] ++ sampleExtRegion)

/-- Like `samplePkt` but with a 31-byte session id, so that the covert
ciphertext assembles to 63 bytes. -/
def samplePktSid31 : List Nat :=
  [0x16, 0x03, 0x01, 0, 0] ++
  ([1, 0, 0, 116] ++ [3, 3] ++ sampleRandom ++ [31] ++ List.replicate 31 7 ++
   [0, 2] ++ [0x13, 0x01] ++ [1] ++ [0] ++ [0, 42] ++ sampleExtRegion)

/-- A well-formed ClientHello packet with an empty extensions region (no
key_share extension at all). -/
def samplePktNoKS : List Nat :=
  [0x16, 0x03, 0x01, 0, 0] ++
  ([1, 0, 0, 40] ++ [3, 3] ++ sampleRandom ++ [0] ++ [0, 0] ++ [0] ++ [0, 0])

/-- A packet whose extensions region is a single stray byte: every field
before the extensions region parses, then the extension-entry read
overruns. -/
def samplePktTruncExt : List Nat :=
  [0x16, 0x03, 0x01, 0, 0] ++
  ([1, 0, 0, 41] ++ [3, 3] ++ sampleRandom ++ [0] ++ [0, 0] ++ [0] ++ [0, 1] ++ [0])

/-- A packet that declares a 32-byte session id but carries only 10 more
bytes: the session-id read overruns the buffer. -/
def samplePktShortSid : List Nat :=
  [0x16, 0x03, 0x01, 0, 0] ++
  ([1, 0, 0, 45] ++ [3, 3] ++ sampleRandom ++ [32] ++ List.replicate 10 7)

/-- Trivial collaborators over unit key types: unmarshalling always
succeeds, the shared secret is a fixed 32-byte value, the AEAD returns a
fixed 48-byte ciphertext, authentication accepts with proxy method 0. -/
def sampleExternals : Externals Unit Unit :=
  { ecdhUnmarshal := fun _ => some ()
    ecdhGenerateSharedSecret := fun _ _ => List.replicate 32 5
    aesgcmEncrypt := fun _ _ _ => .ok (List.range 48)
    touchStone := fun _ _ => .ok ⟨0⟩ }

/-- A fresh server state enabling proxy method 0. -/
def sampleState : SrvState Unit :=
  { staticPv := (), usedRandom := [], now := 0, proxyBook := [0] }

/-- A fresh connection with nothing written. -/
def sampleConn : Conn := { written := [], closed := false }

/-- A ClientHello value with an empty session id (as produced by parsing
a packet whose session-id length byte is zero). -/
def sampleChEmptySid : ClientHello :=
  { handshakeType := 1, length := 40, clientVersion := [3, 3],
    random := sampleRandom, sessionIdLen := 0, sessionId := [],
    cipherSuitesLen := 0, cipherSuites := [], compressionMethodsLen := 0,
    compressionMethods := [], extensionsLen := 0, extensions := emptyExts }

/-- A ClientHello value with a 32-byte session id. -/
def sampleChSid32 : ClientHello :=
  { handshakeType := 1, length := 117, clientVersion := [3, 3],
    random := sampleRandom, sessionIdLen := 32, sessionId := sampleSid32,
    cipherSuitesLen := 2, cipherSuites := [0x13, 0x01],
    compressionMethodsLen := 1, compressionMethods := [0],
    extensionsLen := 42,
    extensions := insertExt emptyExts (0x00, 0x33) sampleKSPayload }

/-- The ClientHello parsed from `samplePktSid31` (31-byte session id). -/
def sampleChSid31 : ClientHello :=
  { handshakeType := 1, length := 116, clientVersion := [3, 3],
    random := sampleRandom, sessionIdLen := 31,
    sessionId := List.replicate 31 7,
    cipherSuitesLen := 2, cipherSuites := [0x13, 0x01],
    compressionMethodsLen := 1, compressionMethods := [0],
    extensionsLen := 42,
    extensions := insertExt emptyExts (0x00, 0x33) sampleKSPayload }

/-- Like `sampleExternals` but with an authentication service that
rejects every client. -/
def sampleExternalsReject : Externals Unit Unit :=
  { sampleExternals with touchStone := fun _ _ => .error (.external 0) }

/-- Three extension entries, two of which share the type `(0, 5)`. -/
def sampleDupExts : List ((Nat × Nat) × List Nat) :=
  [((0, 5), [1, 2]), ((0, 7), [6]), ((0, 5), [3])]

/-- A fixed 48-byte stand-in for an AEAD ciphertext-with-tag. -/
def sampleEK48 : List Nat := List.range 48

/-- An AEAD collaborator that always returns `sampleEK48`. -/
def sampleAead : List Nat → List Nat → List Nat → Except Err (List Nat) :=
  fun _ _ _ => .ok sampleEK48

/-! ### Helper lemmas -/

lemma parseExtensionsLoop_error_aux (fuel : Nat) :
    ∀ (l : List Nat) (m : ExtMap) (e : Err),
      parseExtensionsLoop m fuel l = .error e → e = .malformedExtensions := by
  induction fuel with
  | zero =>
      intro l m e h
      match l with
      | [] => simp [parseExtensionsLoop] at h
      | [a] => simp [parseExtensionsLoop] at h; exact h.symm
      | [a, b] => simp [parseExtensionsLoop] at h; exact h.symm
      | [a, b, c] => simp [parseExtensionsLoop] at h; exact h.symm
      | t1 :: t2 :: l1 :: l2 :: rest =>
          simp [parseExtensionsLoop] at h; exact h.symm
  | succ n ih =>
      intro l m e h
      match l with
      | [] => simp [parseExtensionsLoop] at h
      | [a] => simp [parseExtensionsLoop] at h; exact h.symm
      | [a, b] => simp [parseExtensionsLoop] at h; exact h.symm
      | [a, b, c] => simp [parseExtensionsLoop] at h; exact h.symm
      | t1 :: t2 :: l1 :: l2 :: rest =>
          rw [parseExtensionsLoop] at h
          by_cases hlen : 256 * l1 + l2 ≤ rest.length
          · rw [if_pos hlen] at h
            exact ih (rest.drop (256 * l1 + l2)) _ _ h
          · rw [if_neg hlen] at h
            simp only [Except.error.injEq] at h
            exact h.symm

lemma parseExtensions_error {input : List Nat} {e : Err}
    (h : parseExtensions input = .error e) : e = .malformedExtensions :=
  parseExtensionsLoop_error_aux input.length input emptyExts e h

lemma parseKeyShareLoop_ok_aux {totalLen : Nat} (fuel : Nat) :
    ∀ (pointer : Nat) (input ks : List Nat),
      parseKeyShareLoop input totalLen fuel pointer = .ok ks → ks.length = 32 := by
  induction fuel with
  | zero =>
      intro p input ks h
      rw [parseKeyShareLoop] at h
      split_ifs at h <;> exact absurd h (by simp)
  | succ n ih =>
      intro p input ks h
      rw [parseKeyShareLoop] at h
      by_cases h1 : p < totalLen
      · rw [if_pos h1] at h
        by_cases h2 : p + 2 ≤ input.length
        · rw [if_pos h2] at h
          by_cases h3 : (input.drop p).take 2 = [0x00, 0x1d]
          · rw [if_pos h3] at h
            by_cases h4 : p + 4 ≤ input.length
            · rw [if_pos h4] at h
              by_cases h5 : be2 ((input.drop (p + 2)).take 2) ≠ 32
              · rw [if_pos h5] at h; exact absurd h (by simp)
              · rw [if_neg h5] at h
                push_neg at h5
                by_cases h6 : p + 4 + be2 ((input.drop (p + 2)).take 2) ≤ input.length
                · rw [if_pos h6] at h
                  simp only [Except.ok.injEq] at h
                  subst h
                  simp only [List.length_take, List.length_drop]
                  omega
                · rw [if_neg h6] at h; exact absurd h (by simp)
            · rw [if_neg h4] at h; exact absurd h (by simp)
          · rw [if_neg h3] at h
            by_cases h4 : p + 4 ≤ input.length
            · rw [if_pos h4] at h
              by_cases h6 : p + 4 + be2 ((input.drop (p + 2)).take 2) ≤ input.length
              · rw [if_pos h6] at h
                exact ih (p + 4 + be2 ((input.drop (p + 2)).take 2)) input ks h
              · rw [if_neg h6] at h; exact absurd h (by simp)
            · rw [if_neg h4] at h; exact absurd h (by simp)
        · rw [if_neg h2] at h; exact absurd h (by simp)
      · rw [if_neg h1] at h; exact absurd h (by simp)

/-- `parseKeyShare` only ever returns a 32-byte value. -/
lemma parseKeyShare_ok_length {input ks : List Nat}
    (h : parseKeyShare input = .ok ks) : ks.length = 32 := by
  unfold parseKeyShare at h
  by_cases h2 : 2 ≤ input.length
  · rw [if_pos h2] at h
    exact parseKeyShareLoop_ok_aux (be2 (input.take 2)) 2 input ks h
  · rw [if_neg h2] at h; exact absurd h (by simp)

/-- A buffer whose first three bytes equal the record magic has at least
three bytes. -/
lemma length_ge_of_take_magic {data : List Nat} (h : data.take 3 = chMagic) :
    3 ≤ data.length := by
  have := congrArg List.length h
  simp only [List.length_take, chMagic, List.length_cons, List.length_nil] at this
  omega

lemma parseCHAfterCm_error_classified {peeled : List Nat} {sidLen csLen cmLen : Nat}
    {e : Err} (h : parseCHAfterCm peeled sidLen csLen cmLen = .error e) :
    e = .malformedClientHello ∨ e = .malformedExtensions := by
  unfold parseCHAfterCm at h
  split_ifs at h <;> try (simp only [Except.error.injEq] at h; subst h; tauto)
  split at h
  · next e' hx =>
      simp only [Except.error.injEq] at h
      subst h
      exact Or.inr (parseExtensions_error hx)
  · exact absurd h (by simp)

lemma parseCHAfterCs_error_classified {peeled : List Nat} {sidLen csLen : Nat}
    {e : Err} (h : parseCHAfterCs peeled sidLen csLen = .error e) :
    e = .malformedClientHello ∨ e = .malformedExtensions := by
  unfold parseCHAfterCs at h
  split_ifs at h <;> try (simp only [Except.error.injEq] at h; subst h; tauto)
  exact parseCHAfterCm_error_classified h

lemma parseCHAfterSid_error_classified {peeled : List Nat} {sidLen : Nat}
    {e : Err} (h : parseCHAfterSid peeled sidLen = .error e) :
    e = .malformedClientHello ∨ e = .malformedExtensions := by
  unfold parseCHAfterSid at h
  split_ifs at h <;> try (simp only [Except.error.injEq] at h; subst h; tauto)
  exact parseCHAfterCs_error_classified h

lemma parseCHBody_error_classified {peeled : List Nat} {e : Err}
    (h : parseCHBody peeled = .error e) :
    e = .malformedClientHello ∨ e = .notClientHello ∨ e = .lengthMismatch ∨
    e = .malformedExtensions := by
  unfold parseCHBody at h
  split_ifs at h <;> try (simp only [Except.error.injEq] at h; subst h; tauto)
  rcases parseCHAfterSid_error_classified h with h' | h' <;> subst h' <;> tauto

/-- Every error `parseClientHello` can return is one of the five parse
errors of TLS.go; in particular the embedding is total, so no input makes
the decoder abort. -/
lemma parseClientHello_error_classified {data : List Nat} {e : Err}
    (h : parseClientHello data = .error e) :
    e = .malformedClientHello ∨ e = .wrongMagic ∨ e = .notClientHello ∨
    e = .lengthMismatch ∨ e = .malformedExtensions := by
  unfold parseClientHello at h
  split_ifs at h <;> try (simp only [Except.error.injEq] at h; subst h; tauto)
  rcases parseCHBody_error_classified h with h' | h' | h' | h' <;> subst h' <;> tauto

lemma parseCHAfterCm_short {peeled : List Nat} {sidLen csLen cmLen : Nat}
    (h : peeled.length < 44 + sidLen + csLen + cmLen) :
    parseCHAfterCm peeled sidLen csLen cmLen = .error .malformedClientHello := by
  unfold parseCHAfterCm
  split_ifs <;> first | rfl | omega

lemma parseCHAfterCs_short {peeled : List Nat} {sidLen csLen : Nat}
    (h : peeled.length < 44 + sidLen + csLen + peeled.getD (41 + sidLen + csLen) 0) :
    parseCHAfterCs peeled sidLen csLen = .error .malformedClientHello := by
  unfold parseCHAfterCs
  split_ifs <;> first | rfl | exact parseCHAfterCm_short (by omega)

lemma parseCHAfterSid_short {peeled : List Nat} {sidLen : Nat}
    (h : peeled.length <
      44 + sidLen + be2 ((peeled.drop (39 + sidLen)).take 2) +
        peeled.getD
          (41 + sidLen + be2 ((peeled.drop (39 + sidLen)).take 2)) 0) :
    parseCHAfterSid peeled sidLen = .error .malformedClientHello := by
  unfold parseCHAfterSid
  split_ifs <;> first | rfl | exact parseCHAfterCs_short (by omega)

lemma parseCHBody_short {peeled : List Nat}
    (htype : peeled.getD 0 0 = 1)
    (hlen : be3 ((peeled.drop 1).take 3) = peeled.length - 4)
    (h : peeled.length <
      44 + peeled.getD 38 0 +
        be2 ((peeled.drop (39 + peeled.getD 38 0)).take 2) +
        peeled.getD
          (41 + peeled.getD 38 0 +
            be2 ((peeled.drop (39 + peeled.getD 38 0)).take 2)) 0) :
    parseCHBody peeled = .error .malformedClientHello := by
  unfold parseCHBody
  split_ifs <;> first | rfl | omega | exact parseCHAfterSid_short (by omega)

lemma parseCHBody_short0 {peeled : List Nat}
    (h : peeled.length < 1) : parseCHBody peeled = .error .malformedClientHello := by
  unfold parseCHBody
  rw [if_pos h]

lemma parseCHBody_short4 {peeled : List Nat}
    (htype : peeled.getD 0 0 = 1) (h : peeled.length < 4) :
    parseCHBody peeled = .error .malformedClientHello := by
  unfold parseCHBody
  split_ifs <;> first | rfl | omega

lemma parseCHAfterCm_ext_error {peeled : List Nat} {sidLen csLen cmLen : Nat} {e : Err}
    (hge : 44 + sidLen + csLen + cmLen ≤ peeled.length)
    (hx : parseExtensions (peeled.drop (44 + sidLen + csLen + cmLen)) = .error e) :
    parseCHAfterCm peeled sidLen csLen cmLen = .error e := by
  unfold parseCHAfterCm
  rw [if_neg (by omega), if_neg (by omega), hx]

lemma parseCHAfterCs_ext_error {peeled : List Nat} {sidLen csLen cmLen : Nat} {e : Err}
    (hcm : cmLen = peeled.getD (41 + sidLen + csLen) 0)
    (hge : 44 + sidLen + csLen + cmLen ≤ peeled.length)
    (hx : parseExtensions (peeled.drop (44 + sidLen + csLen + cmLen)) = .error e) :
    parseCHAfterCs peeled sidLen csLen = .error e := by
  unfold parseCHAfterCs
  subst hcm
  rw [if_neg (by omega), if_neg (by omega)]
  exact parseCHAfterCm_ext_error hge hx

lemma parseCHBody_ext_error {peeled : List Nat} {sidLen csLen cmLen : Nat} {e : Err}
    (htype : peeled.getD 0 0 = 1)
    (hlen : be3 ((peeled.drop 1).take 3) = peeled.length - 4)
    (hsid : sidLen = peeled.getD 38 0)
    (hcs : csLen = be2 ((peeled.drop (39 + sidLen)).take 2))
    (hcm : cmLen = peeled.getD (41 + sidLen + csLen) 0)
    (hge : 44 + sidLen + csLen + cmLen ≤ peeled.length)
    (hx : parseExtensions (peeled.drop (44 + sidLen + csLen + cmLen)) = .error e) :
    parseCHBody peeled = .error e := by
  unfold parseCHBody
  rw [if_neg (by omega), if_neg (by omega), if_neg (by omega),
      if_neg (by omega), if_neg (by omega), if_neg (by omega), if_neg (by omega)]
  unfold parseCHAfterSid
  rw [← hsid, if_neg (by omega), if_neg (by omega)]
  exact parseCHAfterCs_ext_error (hcs ▸ hcm) (by omega) (by rw [← hcs]; exact hx)

/-! ### Claim C1 -/

/-- C1 (amended).  The Handshake Decoder is total: `parseClientHello`
(with `parseExtensions` on the extensions region) returns a structured
ClientHello or one of five parse-error values, never aborting.  For every
byte sequence too short for a read performed directly by
`parseClientHello` — the record magic, the record header, the message
type, the 3-byte length field, or any fixed or variable-length body field
whose (declared) extent exceeds the remaining buffer — the result is the
`Malformed ClientHello` error; a short read inside the extensions region
instead yields the `Malformed Extensions` error.  Here `sid`, `cs`, `cm`
are the session-id, cipher-suite and compression-method lengths read at
their offsets in the peeled buffer, and `44 + sid + cs + cm` exceeding
the buffer is exactly the condition that some body read overruns. -/
theorem c1_decoder_total_truncation_malformed (data : List Nat) :
    (∀ e, parseClientHello data = .error e →
        e = .malformedClientHello ∨ e = .wrongMagic ∨ e = .notClientHello ∨
        e = .lengthMismatch ∨ e = .malformedExtensions) ∧
    (data.length < 3 → parseClientHello data = .error .malformedClientHello) ∧
    (data.take 3 = chMagic → data.length < 6 →
        parseClientHello data = .error .malformedClientHello) ∧
    (data.take 3 = chMagic → (data.drop 5).getD 0 0 = 1 →
        (data.drop 5).length < 4 →
        parseClientHello data = .error .malformedClientHello) ∧
    (∀ sid cs cm, data.take 3 = chMagic → (data.drop 5).getD 0 0 = 1 →
        be3 (((data.drop 5).drop 1).take 3) = (data.drop 5).length - 4 →
        sid = (data.drop 5).getD 38 0 →
        cs = be2 (((data.drop 5).drop (39 + sid)).take 2) →
        cm = (data.drop 5).getD (41 + sid + cs) 0 →
        (data.drop 5).length < 44 + sid + cs + cm →
        parseClientHello data = .error .malformedClientHello) ∧
    (∀ sid cs cm e, data.take 3 = chMagic → (data.drop 5).getD 0 0 = 1 →
        be3 (((data.drop 5).drop 1).take 3) = (data.drop 5).length - 4 →
        sid = (data.drop 5).getD 38 0 →
        cs = be2 (((data.drop 5).drop (39 + sid)).take 2) →
        cm = (data.drop 5).getD (41 + sid + cs) 0 →
        44 + sid + cs + cm ≤ (data.drop 5).length →
        parseExtensions ((data.drop 5).drop (44 + sid + cs + cm)) = .error e →
        parseClientHello data = .error .malformedExtensions) := by
  refine ⟨fun e h => parseClientHello_error_classified h, ?_, ?_, ?_, ?_, ?_⟩
  · intro h
    unfold parseClientHello
    rw [if_pos h]
  · intro hm h6
    have h3 := length_ge_of_take_magic hm
    unfold parseClientHello
    rw [if_neg (by omega), if_neg (not_not_intro hm)]
    by_cases h5 : data.length < 5
    · rw [if_pos h5]
    · rw [if_neg h5]
      exact parseCHBody_short0 (by simp only [List.length_drop]; omega)
  · intro hm ht h4
    have h3 := length_ge_of_take_magic hm
    unfold parseClientHello
    rw [if_neg (by omega), if_neg (not_not_intro hm)]
    by_cases h5 : data.length < 5
    · rw [if_pos h5]
    · rw [if_neg h5]
      exact parseCHBody_short4 ht h4
  · intro sid cs cm hm ht hl hsid hcs hcm hshort
    have h3 := length_ge_of_take_magic hm
    unfold parseClientHello
    rw [if_neg (by omega), if_neg (not_not_intro hm)]
    by_cases h5 : data.length < 5
    · rw [if_pos h5]
    · rw [if_neg h5]
      subst hsid
      subst hcs
      subst hcm
      exact parseCHBody_short ht hl hshort
  · intro sid cs cm e hm ht hl hsid hcs hcm hge hx
    have h3 := length_ge_of_take_magic hm
    have he := parseExtensions_error hx
    subst he
    unfold parseClientHello
    have h49 : ¬ data.length < 5 := by
      simp only [List.length_drop] at hge
      omega
    rw [if_neg (by omega), if_neg (not_not_intro hm), if_neg h49]
    exact parseCHBody_ext_error ht hl hsid hcs hcm hge hx

/-- C1 counterexample: `samplePktTruncExt` is a byte sequence too short
for a read the parser performs (the extension-entry type read inside the
extensions region overruns), yet the decoder returns the
`Malformed Extensions` error, not the claimed `Malformed ClientHello`. -/
theorem c1_counterexample :
    parseClientHello samplePktTruncExt = .error .malformedExtensions ∧
    Err.malformedExtensions ≠ Err.malformedClientHello :=
  ⟨rfl, by decide⟩

/-- Witness for C1 at concrete inputs: a packet whose declared 32-byte
session id overruns the buffer, and a 1-byte packet. -/
theorem c1_decoder_total_truncation_malformed_witness :
    parseClientHello samplePktShortSid = .error .malformedClientHello ∧
    parseClientHello [0x16] = .error .malformedClientHello := by
  constructor
  · exact (c1_decoder_total_truncation_malformed samplePktShortSid).2.2.2.2.1
      32 0 0 (by decide) (by decide) (by decide) (by decide) (by decide)
      (by decide) (by decide)
  · exact (c1_decoder_total_truncation_malformed [0x16]).2.1 (by decide)

/-! ### Claim C10 -/

lemma parseExtensionsLoop_encode :
    ∀ (es : List ((Nat × Nat) × List Nat)) (fuel : Nat) (m : ExtMap),
      (encodeExts es).length ≤ fuel →
      ∃ m', parseExtensionsLoop m fuel (encodeExts es) = .ok m' ∧
        ∀ k, m' k = match lastPayload k es with
          | some v => some v
          | none => m k := by
  intro es
  induction es with
  | nil =>
      intro fuel m _
      refine ⟨m, ?_, fun k => rfl⟩
      cases fuel <;> rfl
  | cons e es ih =>
      intro fuel m hfuel
      have hlen : (encodeExts (e :: es)).length =
          4 + e.2.length + (encodeExts es).length := by
        simp only [encodeExts, encodeExt, List.length_append, List.length_cons]
        omega
      rcases fuel with _ | f
      · omega
      · have hrest : (encodeExts es).length ≤ f := by omega
        have hstep :
            parseExtensionsLoop m (f + 1) (encodeExts (e :: es)) =
            parseExtensionsLoop (insertExt m e.1 e.2) f (encodeExts es) := by
          show parseExtensionsLoop m (f + 1)
              (e.1.1 :: e.1.2 :: (e.2.length / 256) :: (e.2.length % 256) ::
                (e.2 ++ encodeExts es)) = _
          simp only [parseExtensionsLoop]
          rw [if_pos (by rw [Nat.div_add_mod]; simp)]
          rw [Nat.div_add_mod]
          rw [List.take_left' rfl, List.drop_left' rfl]
        obtain ⟨m', hm', hk⟩ := ih f (insertExt m e.1 e.2) hrest
        refine ⟨m', by rw [hstep]; exact hm', fun k => ?_⟩
        rw [hk k]
        simp only [lastPayload]
        cases hlp : lastPayload k es with
        | some v => rfl
        | none =>
            simp only [insertExt]
            by_cases hek : e.1 = k
            · rw [if_pos hek, if_pos (by rw [hek])]
            · rw [if_neg hek, if_neg (fun hke => hek hke.symm)]

lemma lastPayload_eq_filter_getLast (k : Nat × Nat) :
    ∀ (es : List ((Nat × Nat) × List Nat)),
      lastPayload k es =
      ((es.filter fun e => e.1 = k).getLast?).map Prod.snd := by
  intro es
  induction es with
  | nil => rfl
  | cons e es ih =>
      simp only [lastPayload, List.filter_cons]
      by_cases hek : e.1 = k
      · simp only [hek]
        cases hfe : es.filter (fun e => decide (e.1 = k)) with
        | nil =>
            have hnone : lastPayload k es = none := by
              rw [ih, hfe]
              rfl
            rw [hnone]
            simp
        | cons f fs =>
            have hne : (es.filter (fun e => decide (e.1 = k))).getLast?.isSome := by
              rw [hfe]
              exact List.getLast?_isSome.mpr (by simp)
            obtain ⟨w, hw⟩ := Option.isSome_iff_exists.mp hne
            have hv : lastPayload k es = some w.2 := by
              rw [ih, hw]
              rfl
            rw [hfe] at hw
            rw [hv]
            simp [List.getLast?_cons_cons, hw]
      · simp only [hek, decide_False, Bool.false_eq_true, if_false]
        rw [← ih]
        cases lastPayload k es <;> simp

/-- C10: for every extensions region that is the concatenation of
well-formed `{type, length, payload}` entries containing two or more
entries of the same 2-byte type `k`, `parseExtensions` succeeds and its
map holds, at `k`, the payload of the last occurrence in the region
(later duplicates silently overwrite earlier ones). -/
theorem c10_duplicate_extension_last_wins
    (es : List ((Nat × Nat) × List Nat)) (k : Nat × Nat)
    (hwf : ∀ e ∈ es, e.2.length < 65536)
    (hdup : 2 ≤ (es.filter fun e => e.1 = k).length) :
    ∃ m, parseExtensions (encodeExts es) = .ok m ∧
      m k = ((es.filter fun e => e.1 = k).getLast?).map Prod.snd := by
  obtain ⟨m, hm, hk⟩ :=
    parseExtensionsLoop_encode es (encodeExts es).length emptyExts le_rfl
  refine ⟨m, hm, ?_⟩
  rw [hk k, lastPayload_eq_filter_getLast]
  cases ((es.filter fun e => e.1 = k).getLast?).map Prod.snd <;> rfl

/-- Witness for C10: a region with two entries of type `(0, 5)`; the
parsed map returns the payload `[3]` of the second one. -/
theorem c10_duplicate_extension_last_wins_witness :
    (∀ e ∈ sampleDupExts, e.2.length < 65536) ∧
    2 ≤ (sampleDupExts.filter fun e => e.1 = ((0, 5) : Nat × Nat)).length ∧
    ∃ m, parseExtensions (encodeExts sampleDupExts) = .ok m ∧
      m (0, 5) =
        ((sampleDupExts.filter fun e => e.1 = ((0, 5) : Nat × Nat)).getLast?).map
          Prod.snd :=
  ⟨by decide, by decide,
   c10_duplicate_extension_last_wins sampleDupExts (0, 5) (by decide) (by decide)⟩

/-! ### Claim C3 -/

/-- C3: for every ClientHello whose 32-byte random field decodes to a
valid public key and whose key_share extension yields a (necessarily
32-byte) x25519 value, `unmarshalClientHello` assembles an
authentication payload whose nonce is exactly the first 12 bytes of the
random field and whose ciphertext-with-tag is exactly the session-id
bytes followed by the key-share value. -/
theorem c3_unmarshal_payload {PubKey PrivKey : Type}
    (E : Externals PubKey PrivKey) (ch : ClientHello) (pv : PrivKey)
    (pk : PubKey) (ks : List Nat)
    (hrand : ch.random.length = 32)
    (hpk : E.ecdhUnmarshal ch.random = some pk)
    (hks : parseKeyShare ((ch.extensions (0x00, 0x33)).getD []) = .ok ks) :
    (unmarshalClientHello E ch pv).1.nonce = ch.random.take 12 ∧
    (unmarshalClientHello E ch pv).1.ciphertextWithTag = ch.sessionId ++ ks ∧
    ks.length = 32 := by
  refine ⟨?_, ?_, parseKeyShare_ok_length hks⟩ <;>
    simp only [unmarshalClientHello, hpk, hks] <;> split_ifs <;> rfl

/-- Witness for C3 at the concrete sample ClientHello and trivial
collaborators. -/
theorem c3_unmarshal_payload_witness :
    (unmarshalClientHello sampleExternals sampleChSid32 ()).1.nonce =
      sampleChSid32.random.take 12 ∧
    (unmarshalClientHello sampleExternals sampleChSid32 ()).1.ciphertextWithTag =
      sampleChSid32.sessionId ++ sampleKS32 ∧
    sampleKS32.length = 32 :=
  c3_unmarshal_payload sampleExternals sampleChSid32 () () sampleKS32
    (by decide) rfl rfl

/-! ### Claim C4 -/

/-- The successful output of `composeServerHello`, regrouped into its
eleven source segments (the grouping is definitionally equal to the
source term). -/
lemma composeServerHello_decomp
    {aead : List Nat → List Nat → List Nat → Except Err (List Nat)}
    {nonce pad4 sessionId sharedSecret sessionKey ek : List Nat}
    (hek : aead nonce sharedSecret sessionKey = .ok ek) :
    composeServerHello aead nonce pad4 sessionId sharedSecret sessionKey =
    .ok ([0x02, 0x00, 0x00, 0x76, 0x03, 0x03] ++
      ((nonce.take 12 ++ ek.take 20) ++
       ([0x20] ++ (sessionId ++
        ([0xc0, 0x30, 0x00, 0x00, 0x2e] ++
         ([0x00, 0x33, 0x00, 0x24, 0x00, 0x1d, 0x00, 0x20] ++
          (((ek.drop 20).take 28 ++ pad4.take 4) ++
           [0x00, 0x2b, 0x00, 0x02, 0x03, 0x04]))))))) := by
  simp only [composeServerHello, hek, List.append_assoc]
  rfl

/-- Length of a successful `composeServerHello` output. -/
lemma composeServerHello_ok_length
    {aead : List Nat → List Nat → List Nat → Except Err (List Nat)}
    {nonce pad4 sessionId sharedSecret sessionKey ek sh : List Nat}
    (hn : nonce.length = 12) (hlen : ek.length = 48) (hp : pad4.length = 4)
    (hek : aead nonce sharedSecret sessionKey = .ok ek)
    (hsh : composeServerHello aead nonce pad4 sessionId sharedSecret sessionKey =
      .ok sh) :
    sh.length = 90 + sessionId.length := by
  rw [composeServerHello_decomp hek] at hsh
  injection hsh with hsh
  subst hsh
  simp only [List.length_append, List.length_take, List.length_drop, List.length_cons,
    List.length_nil, hn, hlen, hp]
  omega

/-- C4: in every reply produced by `composeServerHello`, the AEAD nonce
is bytes 0..11 of the ServerHello random field (bytes 6..37 of the
message), and bytes 12..31 of the random field followed by the first 28
bytes of the key_share key-exchange field (which starts at offset
`52 + |session-id|`) reassemble the 48-byte AEAD ciphertext-with-tag
bit-for-bit. -/
theorem c4_nonce_and_split_roundtrip
    (aead : List Nat → List Nat → List Nat → Except Err (List Nat))
    (nonce pad4 sessionId sharedSecret sessionKey ek sh : List Nat)
    (hn : nonce.length = 12)
    (hek : aead nonce sharedSecret sessionKey = .ok ek)
    (hlen : ek.length = 48)
    (hsh : composeServerHello aead nonce pad4 sessionId sharedSecret sessionKey =
      .ok sh) :
    (sh.drop 6).take 12 = nonce ∧
    (sh.drop 18).take 20 ++ (sh.drop (52 + sessionId.length)).take 28 = ek := by
  rw [composeServerHello_decomp hek] at hsh
  injection hsh with hsh
  subst hsh
  have hA : nonce.take 12 = nonce := List.take_of_length_le (by omega)
  have h12 : (nonce.take 12).length = 12 := by rw [hA, hn]
  have hpre : ([0x02, 0x00, 0x00, 0x76, 0x03, 0x03] : List Nat).length = 6 := rfl
  have hB : (ek.take 20).length = 20 := by
    simp only [List.length_take, hlen]
    omega
  have hM : ((ek.drop 20).take 28).length = 28 := by
    simp only [List.length_take, List.length_drop, hlen]
    omega
  constructor
  · rw [List.drop_left' hpre, List.append_assoc, List.take_left' h12, hA]
  · rw [show (18 : Nat) = 6 + 12 from rfl]
    rw [← List.drop_drop]
    rw [List.drop_left' hpre]
    rw [List.append_assoc]
    rw [List.drop_left' h12]
    rw [List.take_left' hB]
    rw [show 52 + sessionId.length =
        6 + 12 + 20 + (1 + sessionId.length) + 5 + 8 from by omega]
    simp only [← List.drop_drop]
    rw [List.drop_left' hpre]
    rw [List.drop_left' h12]
    rw [List.drop_left' hB]
    rw [List.drop_left' (show ([0x20] : List Nat).length = 1 from rfl)]
    rw [List.drop_left' (rfl : sessionId.length = sessionId.length)]
    rw [List.drop_left'
        (show ([0xc0, 0x30, 0x00, 0x00, 0x2e] : List Nat).length = 5 from rfl)]
    rw [List.drop_left'
        (show ([0x00, 0x33, 0x00, 0x24, 0x00, 0x1d, 0x00, 0x20] :
          List Nat).length = 8 from rfl)]
    rw [List.append_assoc]
    rw [List.take_left' hM]
    rw [← List.take_add]
    exact List.take_of_length_le (by omega)

/-- Witness for C4 at concrete inputs: the sample AEAD output and a
32-byte session id. -/
theorem c4_nonce_and_split_roundtrip_witness :
    ∃ sh, composeServerHello sampleAead (List.range 12) [1, 2, 3, 4]
        sampleSid32 [] [] = .ok sh ∧
      (sh.drop 6).take 12 = List.range 12 ∧
      (sh.drop 18).take 20 ++ (sh.drop (52 + sampleSid32.length)).take 28 =
        sampleEK48 := by
  refine ⟨_, rfl, ?_⟩
  exact c4_nonce_and_split_roundtrip sampleAead (List.range 12) [1, 2, 3, 4]
    sampleSid32 [] [] sampleEK48 _ (by decide) rfl (by decide) rfl

/-! ### Claim C2 -/

/-- C2 (amended): for every ClientHello whose session-id is exactly 32
bytes, every shared secret, and every 32-byte session key on which the
AEAD succeeds (with its 48-byte output), `composeReply` produces exactly
three TLS records in order — ServerHello `{0x16, 0x0303, length 122}`
with handshake length `0x000076`, version `0x0303`, session-id-length
`0x20`, cipher suite `0xc030`, compression `0x00`, extensions length
`0x002e`, key_share header `00330024001d0020` and supported_versions
`002b00020304`; ChangeCipherSpec `{0x14, 0x0303, length 1}` with payload
`0x01`; application-data `{0x17, 0x0303, length 68}` — with total length
206. -/
theorem c2_reply_fixed_shape
    (aead : List Nat → List Nat → List Nat → Except Err (List Nat))
    (nonce pad4 cert : List Nat) (ch : ClientHello)
    (sharedSecret sessionKey ek r : List Nat)
    (hsid : ch.sessionId.length = 32)
    (hsk : sessionKey.length = 32)
    (hn : nonce.length = 12) (hp : pad4.length = 4) (hc : cert.length = 68)
    (hek : aead nonce sharedSecret sessionKey = .ok ek) (hlen : ek.length = 48)
    (hr : composeReply aead nonce pad4 cert ch sharedSecret sessionKey = .ok r) :
    r.length = 206 ∧
    r.take 5 = [0x16, 0x03, 0x03, 0x00, 122] ∧
    (r.drop 5).take 4 = [0x02, 0x00, 0x00, 0x76] ∧
    (r.drop 9).take 2 = [0x03, 0x03] ∧
    (r.drop 43).take 1 = [0x20] ∧
    (r.drop 76).take 5 = [0xc0, 0x30, 0x00, 0x00, 0x2e] ∧
    (r.drop 81).take 8 = [0x00, 0x33, 0x00, 0x24, 0x00, 0x1d, 0x00, 0x20] ∧
    (r.drop 121).take 6 = [0x00, 0x2b, 0x00, 0x02, 0x03, 0x04] ∧
    (r.drop 127).take 6 = [0x14, 0x03, 0x03, 0x00, 0x01, 0x01] ∧
    (r.drop 133).take 5 = [0x17, 0x03, 0x03, 0x00, 68] := by
  have hT := @composeServerHello_ok_length aead nonce pad4 ch.sessionId
    sharedSecret sessionKey ek _ hn hlen hp hek
    (@composeServerHello_decomp aead nonce pad4 ch.sessionId sharedSecret
      sessionKey ek hek)
  rw [hsid] at hT
  rw [show (90 : Nat) + 32 = 122 from rfl] at hT
  simp only [composeReply, composeServerHello_decomp hek] at hr
  injection hr with hr
  subst hr
  have hA : nonce.take 12 = nonce := List.take_of_length_le (by omega)
  have h12 : (nonce.take 12).length = 12 := by rw [hA, hn]
  have hB : (ek.take 20).length = 20 := by
    simp only [List.length_take, hlen]
    omega
  have hM : ((ek.drop 20).take 28).length = 28 := by
    simp only [List.length_take, List.length_drop, hlen]
    omega
  have hP : (pad4.take 4).length = 4 := by
    simp only [List.length_take, hp]
    omega
  have dl1 : ∀ (a : Nat) (X : List Nat), ([a] ++ X).drop 1 = X :=
    fun _ _ => rfl
  have dl2 : ∀ (a b : Nat) (X : List Nat), ([a, b] ++ X).drop 2 = X :=
    fun _ _ _ => rfl
  have dl5 : ∀ (a b c d e : Nat) (X : List Nat),
      ([a, b, c, d, e] ++ X).drop 5 = X := fun _ _ _ _ _ _ => rfl
  have dl6 : ∀ (a b c d e f : Nat) (X : List Nat),
      ([a, b, c, d, e, f] ++ X).drop 6 = X := fun _ _ _ _ _ _ _ => rfl
  have dl8 : ∀ (a b c d e f g h : Nat) (X : List Nat),
      ([a, b, c, d, e, f, g, h] ++ X).drop 8 = X :=
    fun _ _ _ _ _ _ _ _ _ => rfl
  simp only [addRecordLayer]
  rw [hT, hc]
  simp only [List.append_assoc]
  refine ⟨?_, ?_, ?_, ?_, ?_, ?_, ?_, ?_, ?_, ?_⟩
  · simp only [List.length_append, List.length_cons, List.length_nil,
      List.length_take, List.length_drop, hn, hlen, hp, hsid]
    omega
  · rfl
  · rfl
  · rfl
  · nth_rewrite 1 [show (43 : Nat) = 1 + 2 + 2 + 6 + 12 + 20 from by norm_num]
    simp only [← List.drop_drop]
    rw [dl1, dl2, dl2, dl6, List.drop_left' h12, List.drop_left' hB]
    rfl
  · nth_rewrite 1 [show (76 : Nat) = 1 + 2 + 2 + 6 + 12 + 20 + 1 + 32
      from by norm_num]
    simp only [← List.drop_drop]
    rw [dl1, dl2, dl2, dl6, List.drop_left' h12, List.drop_left' hB, dl1,
      List.drop_left' hsid]
    rfl
  · nth_rewrite 1 [show (81 : Nat) = 1 + 2 + 2 + 6 + 12 + 20 + 1 + 32 + 5
      from by norm_num]
    simp only [← List.drop_drop]
    rw [dl1, dl2, dl2, dl6, List.drop_left' h12, List.drop_left' hB, dl1,
      List.drop_left' hsid, dl5]
    rfl
  · nth_rewrite 1 [show (121 : Nat) =
        1 + 2 + 2 + 6 + 12 + 20 + 1 + 32 + 5 + 8 + 28 + 4 from by norm_num]
    simp only [← List.drop_drop]
    rw [dl1, dl2, dl2, dl6, List.drop_left' h12, List.drop_left' hB, dl1,
      List.drop_left' hsid, dl5, dl8, List.drop_left' hM, List.drop_left' hP]
    rfl
  · nth_rewrite 1 [show (127 : Nat) =
        1 + 2 + 2 + 6 + 12 + 20 + 1 + 32 + 5 + 8 + 28 + 4 + 6 from by norm_num]
    simp only [← List.drop_drop]
    rw [dl1, dl2, dl2, dl6, List.drop_left' h12, List.drop_left' hB, dl1,
      List.drop_left' hsid, dl5, dl8, List.drop_left' hM, List.drop_left' hP,
      dl6]
    rfl
  · nth_rewrite 1 [show (133 : Nat) =
        1 + 2 + 2 + 6 + 12 + 20 + 1 + 32 + 5 + 8 + 28 + 4 + 6 + 1 + 2 + 2 + 1
      from by norm_num]
    simp only [← List.drop_drop]
    rw [dl1, dl2, dl2, dl6, List.drop_left' h12, List.drop_left' hB, dl1,
      List.drop_left' hsid, dl5, dl8, List.drop_left' hM, List.drop_left' hP,
      dl6, dl1, dl2, dl2, dl1]
    rfl

/-- C2 counterexample: a ClientHello with an empty session id (and the
AEAD succeeding on a 32-byte session key) yields a ServerHello record
header declaring length 90, not the claimed fixed 122. -/
theorem c2_counterexample :
    (composeReply sampleAead (List.range 12) [1, 2, 3, 4]
        (List.replicate 68 0) sampleChEmptySid [] (List.replicate 32 4)).map
      (List.take 5) = .ok [0x16, 0x03, 0x03, 0x00, 90] ∧
    ([0x16, 0x03, 0x03, 0x00, 90] : List Nat) ≠ [0x16, 0x03, 0x03, 0x00, 122] :=
  ⟨rfl, by decide⟩

/-- Witness for C2 at concrete inputs: the sample 32-byte-session-id
ClientHello with the sample AEAD. -/
theorem c2_reply_fixed_shape_witness :
    ∃ r, composeReply sampleAead (List.range 12) [1, 2, 3, 4]
        (List.replicate 68 0) sampleChSid32 [] (List.replicate 32 4) = .ok r ∧
      r.length = 206 ∧ r.take 5 = [0x16, 0x03, 0x03, 0x00, 122] := by
  have h := c2_reply_fixed_shape sampleAead (List.range 12) [1, 2, 3, 4]
    (List.replicate 68 0) sampleChSid32 [] (List.replicate 32 4) sampleEK48 _
    (by decide) (by decide) (by decide) (by decide) (by decide) rfl
    (by decide) rfl
  exact ⟨_, rfl, h.1, h.2.1⟩

/-! ### PrepareConnection path lemmas -/

lemma registerRandom_mem {PrivKey : Type} (sta : SrvState PrivKey) (r : List Nat) :
    r ∈ (registerRandom sta r).2.usedRandom := by
  unfold registerRandom
  by_cases h : r ∈ sta.usedRandom <;> simp [h]

/-- A session-id length certificate from a successful unmarshal: the
64-byte ciphertext check together with the 32-byte key share forces a
32-byte session id. -/
lemma unmarshalClientHello_none_sid {PubKey PrivKey : Type}
    {E : Externals PubKey PrivKey} {ch : ClientHello} {pv : PrivKey}
    {ai : authenticationInfo}
    (h : unmarshalClientHello E ch pv = (ai, none)) :
    ch.sessionId.length = 32 := by
  unfold unmarshalClientHello at h
  cases hpk : E.ecdhUnmarshal ch.random with
  | none => simp only [hpk] at h; simp at h
  | some pk =>
      simp only [hpk] at h
      cases hks : parseKeyShare ((ch.extensions (0x00, 0x33)).getD []) with
      | error e => simp only [hks] at h; simp at h
      | ok ks =>
          simp only [hks] at h
          by_cases hl : (ch.sessionId ++ ks).length ≠ 64
          · rw [if_pos hl] at h
            simp at h
          · push_neg at hl
            have hk := parseKeyShare_ok_length hks
            rw [List.length_append, hk] at hl
            omega

/-- Inversion of the success path of `PrepareConnection`: a returned
finisher certifies the full pipeline — parse, fresh random, successful
unmarshal, accepting `touchStone`, registered proxy method — and is the
closure over the parsed hello and derived shared secret. -/
lemma PrepareConnection_ok_inv {PubKey PrivKey : Type}
    {E : Externals PubKey PrivKey} {pkt : List Nat} {sta : SrvState PrivKey}
    {conn : Conn} {info : ClientInfo} {fin : Finisher}
    (hok : (PrepareConnection E pkt sta conn).1 = .ok (info, fin)) :
    ∃ ch ai, parseClientHello pkt = .ok ch ∧
      ch.random ∉ sta.usedRandom ∧
      unmarshalClientHello E ch sta.staticPv = (ai, none) ∧
      E.touchStone ai sta.now = .ok info ∧
      info.proxyMethod ∈ sta.proxyBook ∧
      fin = mkFinisher E ch ai.sharedSecret := by
  unfold PrepareConnection at hok
  cases hch : parseClientHello pkt with
  | error e => rw [hch] at hok; simp at hok
  | ok ch =>
      rw [hch] at hok
      by_cases hmem : ch.random ∈ sta.usedRandom
      · simp [registerRandom, hmem] at hok
      · simp only [registerRandom, hmem, decide_False, Bool.false_eq_true,
          if_false] at hok
        cases hun : unmarshalClientHello E ch sta.staticPv with
        | mk ai oe =>
            cases oe with
            | some e => simp [hun] at hok
            | none =>
                simp only [hun] at hok
                cases hts : E.touchStone ai sta.now with
                | error e => simp [hts] at hok
                | ok info' =>
                    simp only [hts] at hok
                    by_cases hpb : info'.proxyMethod ∈ sta.proxyBook
                    · rw [if_pos hpb] at hok
                      simp only [Except.ok.injEq, Prod.mk.injEq] at hok
                      obtain ⟨hinfo, hfin⟩ := hok
                      subst hinfo
                      exact ⟨ch, ai, rfl, hmem, hun, hts, hpb, hfin.symm⟩
                    · rw [if_neg hpb] at hok
                      simp at hok

/-- Replay short-circuit: with the parsed random already registered,
`PrepareConnection` stops with `ErrReplay` (for every choice of
collaborators). -/
lemma PrepareConnection_replay {PubKey PrivKey : Type}
    {E : Externals PubKey PrivKey} {pkt : List Nat} {sta : SrvState PrivKey}
    {conn : Conn} {ch : ClientHello}
    (hch : parseClientHello pkt = .ok ch)
    (hmem : ch.random ∈ sta.usedRandom) :
    (PrepareConnection E pkt sta conn).1 = .error .errReplay := by
  simp [PrepareConnection, hch, registerRandom, hmem]

/-- An `unmarshalClientHello` failure is returned unchanged by
`PrepareConnection`. -/
lemma PrepareConnection_unmarshal_err {PubKey PrivKey : Type}
    {E : Externals PubKey PrivKey} {pkt : List Nat} {sta : SrvState PrivKey}
    {conn : Conn} {ch : ClientHello} {ai : authenticationInfo} {e : Err}
    (hch : parseClientHello pkt = .ok ch)
    (hmem : ch.random ∉ sta.usedRandom)
    (hun : unmarshalClientHello E ch sta.staticPv = (ai, some e)) :
    (PrepareConnection E pkt sta conn).1 = .error e := by
  simp only [PrepareConnection, hch, registerRandom, hmem, decide_False,
    Bool.false_eq_true, if_false, hun]

/-- A `touchStone` failure collapses to `ErrNotCloak`. -/
lemma PrepareConnection_touchstone_err {PubKey PrivKey : Type}
    {E : Externals PubKey PrivKey} {pkt : List Nat} {sta : SrvState PrivKey}
    {conn : Conn} {ch : ClientHello} {ai : authenticationInfo} {e : Err}
    (hch : parseClientHello pkt = .ok ch)
    (hmem : ch.random ∉ sta.usedRandom)
    (hun : unmarshalClientHello E ch sta.staticPv = (ai, none))
    (hts : E.touchStone ai sta.now = .error e) :
    (PrepareConnection E pkt sta conn).1 = .error .errNotCloak := by
  simp only [PrepareConnection, hch, registerRandom, hmem, decide_False,
    Bool.false_eq_true, if_false, hun, hts]

/-- After a successful parse the random field is in the final state's
replay set, whatever happens later. -/
lemma PrepareConnection_state_registered {PubKey PrivKey : Type}
    {E : Externals PubKey PrivKey} {pkt : List Nat} {sta : SrvState PrivKey}
    {conn : Conn} {ch : ClientHello}
    (hch : parseClientHello pkt = .ok ch) :
    ch.random ∈ (PrepareConnection E pkt sta conn).2.1.usedRandom := by
  simp only [PrepareConnection, hch]
  by_cases hmem : ch.random ∈ sta.usedRandom
  · simp [registerRandom, hmem]
  · simp only [registerRandom, hmem, decide_False, Bool.false_eq_true, if_false]
    cases hun : unmarshalClientHello E ch sta.staticPv with
    | mk ai oe =>
        cases oe with
        | some e => simp [hun]
        | none =>
            simp only [hun]
            cases hts : E.touchStone ai sta.now with
            | error e => simp [hts]
            | ok info' =>
                simp only [hts]
                by_cases hpb : info'.proxyMethod ∈ sta.proxyBook
                · rw [if_pos hpb]
                  simp
                · rw [if_neg hpb]
                  simp

/-- `PrepareConnection` itself never touches the connection: the returned
connection is the one passed in, on every path. -/
lemma PrepareConnection_conn_unchanged {PubKey PrivKey : Type}
    (E : Externals PubKey PrivKey) (pkt : List Nat) (sta : SrvState PrivKey)
    (conn : Conn) :
    (PrepareConnection E pkt sta conn).2.2 = conn := by
  unfold PrepareConnection
  cases hch : parseClientHello pkt with
  | error e => simp
  | ok ch =>
      by_cases hmem : ch.random ∈ sta.usedRandom
      · simp [registerRandom, hmem]
      · simp only [registerRandom, hmem, decide_False, Bool.false_eq_true,
          if_false]
        cases hun : unmarshalClientHello E ch sta.staticPv with
        | mk ai oe =>
            cases oe with
            | some e => simp [hun]
            | none =>
                simp only [hun]
                cases hts : E.touchStone ai sta.now with
                | error e => simp [hts]
                | ok info' =>
                    simp only [hts]
                    by_cases hpb : info'.proxyMethod ∈ sta.proxyBook
                    · rw [if_pos hpb]
                    · rw [if_neg hpb]

/-! ### Claim C7 -/

/-- C7: for every successfully parsed ClientHello, the 32-byte random
field is registered in the replay guard and the registration survives in
the final state whatever happens later (it is never rolled back); and if
the guard already holds the value, the attempt stops with `ErrReplay` —
for every choice of the key-exchange, authentication and registry
collaborators, so none of them can run or influence the outcome. -/
theorem c7_replay_guard {PubKey PrivKey : Type}
    (E : Externals PubKey PrivKey) (pkt : List Nat) (sta : SrvState PrivKey)
    (conn : Conn) (ch : ClientHello)
    (hch : parseClientHello pkt = .ok ch) :
    ch.random ∈ (PrepareConnection E pkt sta conn).2.1.usedRandom ∧
    (ch.random ∈ sta.usedRandom →
      (PrepareConnection E pkt sta conn).1 = .error .errReplay) :=
  ⟨PrepareConnection_state_registered hch,
   fun hmem => PrepareConnection_replay hch hmem⟩

set_option maxRecDepth 100000 in
/-- Witness for C7: the sample packet registers its random on a fresh
state, and replays against a state already holding it. -/
theorem c7_replay_guard_witness :
    sampleChSid32.random ∈
      (PrepareConnection sampleExternals samplePkt sampleState
        sampleConn).2.1.usedRandom ∧
    (PrepareConnection sampleExternals samplePkt
        { staticPv := (), usedRandom := [sampleRandom], now := 0,
          proxyBook := [0] } sampleConn).1 = .error .errReplay := by
  constructor
  · exact (c7_replay_guard sampleExternals samplePkt sampleState sampleConn
      sampleChSid32 (by rfl)).1
  · exact (c7_replay_guard sampleExternals samplePkt
      { staticPv := (), usedRandom := [sampleRandom], now := 0,
        proxyBook := [0] } sampleConn sampleChSid32 (by rfl)).2 (by decide)

/-! ### Claim C5 -/

set_option maxRecDepth 100000 in
/-- C5 counterexample: a well-formed non-replayed ClientHello whose
random unmarshals but whose extensions carry no key_share makes
`PrepareConnection` return the extractor's own `malformed key_share`
error, not the generic `ErrNotCloak`. -/
theorem c5_counterexample :
    (PrepareConnection sampleExternals samplePktNoKS sampleState
        sampleConn).1 = .error .malformedKeyShare ∧
    Err.malformedKeyShare ≠ Err.errNotCloak :=
  ⟨by rfl, by decide⟩

/-- C5 (amended): in the KEY_DERIVED→AUTHENTICATED stage, only
Authentication Bridge (`touchStone`) failures collapse to the generic
`ErrNotCloak`; failures of the key-share Extractor or of the
ciphertext-length check (any `unmarshalClientHello` error) are returned
from `PrepareConnection` unchanged, as their own specific errors. -/
theorem c5_error_collapse {PubKey PrivKey : Type}
    (E : Externals PubKey PrivKey) (pkt : List Nat) (sta : SrvState PrivKey)
    (conn : Conn) (ch : ClientHello)
    (hch : parseClientHello pkt = .ok ch)
    (hmem : ch.random ∉ sta.usedRandom) :
    (∀ ai e, unmarshalClientHello E ch sta.staticPv = (ai, some e) →
        (PrepareConnection E pkt sta conn).1 = .error e) ∧
    (∀ ai, unmarshalClientHello E ch sta.staticPv = (ai, none) →
        ∀ e, E.touchStone ai sta.now = .error e →
          (PrepareConnection E pkt sta conn).1 = .error .errNotCloak) :=
  ⟨fun _ _ hun => PrepareConnection_unmarshal_err hch hmem hun,
   fun _ hun _ hts => PrepareConnection_touchstone_err hch hmem hun hts⟩

set_option maxRecDepth 100000 in
/-- Witness for C5: the key_share-less packet surfaces
`malformed key_share` itself, and a rejecting authentication service
yields `ErrNotCloak` on the well-formed packet. -/
theorem c5_error_collapse_witness :
    (PrepareConnection sampleExternals samplePktNoKS sampleState
        sampleConn).1 = .error .malformedKeyShare ∧
    (PrepareConnection sampleExternalsReject samplePkt sampleState
        sampleConn).1 = .error .errNotCloak := by
  constructor
  · exact (c5_error_collapse sampleExternals samplePktNoKS sampleState
      sampleConn sampleChEmptySid (by rfl) (by decide)).1
      ⟨sampleRandom.take 12, List.replicate 32 5, []⟩ .malformedKeyShare
      (by rfl)
  · exact (c5_error_collapse sampleExternalsReject samplePkt sampleState
      sampleConn sampleChSid32 (by rfl) (by decide)).2
      ⟨sampleRandom.take 12, List.replicate 32 5,
        sampleSid32 ++ sampleKS32⟩ (by rfl) (.external 0) (by rfl)

/-! ### Claim C6 -/

/-- C6: whenever the session-id length plus the 32-byte key-share value
does not total 64 bytes, `unmarshalClientHello` fails with the
ciphertext-length error and `PrepareConnection` returns it — for every
authentication service whatsoever, so `touchStone` is never consulted
and cannot affect the outcome. -/
theorem c6_ciphertext_length_gate {PubKey PrivKey : Type}
    (E : Externals PubKey PrivKey) (pkt : List Nat) (sta : SrvState PrivKey)
    (conn : Conn) (ch : ClientHello) (pk : PubKey) (ks : List Nat)
    (hch : parseClientHello pkt = .ok ch)
    (hmem : ch.random ∉ sta.usedRandom)
    (hpk : E.ecdhUnmarshal ch.random = some pk)
    (hks : parseKeyShare ((ch.extensions (0x00, 0x33)).getD []) = .ok ks)
    (hne : ch.sessionId.length + 32 ≠ 64) :
    ∀ ts, (PrepareConnection { E with touchStone := ts } pkt sta conn).1 =
      .error (.errCiphertextLength (ch.sessionId.length + 32)) := by
  intro ts
  have hk := parseKeyShare_ok_length hks
  have hlen : (ch.sessionId ++ ks).length = ch.sessionId.length + 32 := by
    rw [List.length_append, hk]
  have hun : unmarshalClientHello { E with touchStone := ts } ch sta.staticPv =
      (⟨ch.random.take 12, E.ecdhGenerateSharedSecret sta.staticPv pk,
        ch.sessionId ++ ks⟩,
       some (.errCiphertextLength (ch.sessionId.length + 32))) := by
    unfold unmarshalClientHello
    simp only [hpk, hks]
    rw [if_pos (by rw [hlen]; exact hne), hlen]
  exact PrepareConnection_unmarshal_err hch hmem hun

set_option maxRecDepth 100000 in
/-- Witness for C6: the 31-byte-session-id packet is rejected with
ciphertext length 63, with the sample authentication service in place. -/
theorem c6_ciphertext_length_gate_witness :
    (PrepareConnection
        { sampleExternals with touchStone := sampleExternals.touchStone }
        samplePktSid31 sampleState sampleConn).1 =
      .error (.errCiphertextLength 63) := by
  have h := c6_ciphertext_length_gate sampleExternals samplePktSid31
    sampleState sampleConn sampleChSid31 () sampleKS32 (by rfl) (by decide)
    (by rfl) (by rfl) (by decide) sampleExternals.touchStone
  exact h

/-! ### Claim C8 -/

/-- C8: `PrepareConnection` never writes to the transport — the
connection comes back untouched on every path, success or failure — and
the only write in the handshake core is performed by the finisher
returned on success: invoking it with a session key appends exactly the
composed reply (when composition and the transport write succeed), and
in every other case (composition failure, write failure) nothing is
appended to the transport log. -/
theorem c8_no_write_before_commit {PubKey PrivKey : Type}
    (E : Externals PubKey PrivKey) (pkt : List Nat) (sta : SrvState PrivKey)
    (conn : Conn) :
    (PrepareConnection E pkt sta conn).2.2 = conn ∧
    (∀ info fin, (PrepareConnection E pkt sta conn).1 = .ok (info, fin) →
      ∃ ch ss, parseClientHello pkt = .ok ch ∧
        fin = mkFinisher E ch ss ∧
        (∀ sk nonce pad4 cert rep conn',
          composeReply E.aesgcmEncrypt nonce pad4 cert ch ss sk = .ok rep →
          fin sk nonce pad4 cert none conn' =
            (none, { conn' with written := conn'.written ++ [rep] })) ∧
        (∀ sk nonce pad4 cert wErr conn',
          (fin sk nonce pad4 cert wErr conn').2.written = conn'.written ∨
          (wErr = none ∧ ∃ rep,
            composeReply E.aesgcmEncrypt nonce pad4 cert ch ss sk = .ok rep ∧
            (fin sk nonce pad4 cert wErr conn').2.written =
              conn'.written ++ [rep]))) := by
  constructor
  · exact PrepareConnection_conn_unchanged E pkt sta conn
  · intro info fin hok
    obtain ⟨ch, ai, hch, _, _, _, _, hfin⟩ := PrepareConnection_ok_inv hok
    refine ⟨ch, ai.sharedSecret, hch, hfin, ?_, ?_⟩
    · intro sk nonce pad4 cert rep conn' hrep
      rw [hfin]
      unfold mkFinisher
      simp only [hrep]
    · intro sk nonce pad4 cert wErr conn'
      rw [hfin]
      unfold mkFinisher
      cases hrep : composeReply E.aesgcmEncrypt nonce pad4 cert ch
          ai.sharedSecret sk with
      | error e => left; simp [hrep]
      | ok rep =>
          simp only [hrep]
          cases wErr with
          | some e => left; rfl
          | none => exact Or.inr ⟨rfl, rep, rfl, rfl⟩

set_option maxRecDepth 100000 in
/-- Witness for C8 at the sample success configuration: the connection
is unchanged by `PrepareConnection`, and invoking the finisher with a
32-byte session key appends exactly the composed reply. -/
theorem c8_no_write_before_commit_witness :
    (PrepareConnection sampleExternals samplePkt sampleState
        sampleConn).2.2 = sampleConn ∧
    ∃ ch ss rep, parseClientHello samplePkt = .ok ch ∧
      composeReply sampleExternals.aesgcmEncrypt (List.range 12) [1, 2, 3, 4]
        (List.replicate 68 0) ch ss (List.replicate 32 4) = .ok rep ∧
      mkFinisher sampleExternals sampleChSid32 (List.replicate 32 5)
          (List.replicate 32 4) (List.range 12) [1, 2, 3, 4]
          (List.replicate 68 0) none sampleConn =
        (none, { written := [rep], closed := false }) := by
  have h := c8_no_write_before_commit sampleExternals samplePkt sampleState
    sampleConn
  refine ⟨h.1, ?_⟩
  obtain ⟨ch, ss, hch, hfin, hA, _⟩ := h.2 ⟨0⟩
    (mkFinisher sampleExternals sampleChSid32 (List.replicate 32 5)) (by rfl)
  cases hrep : composeReply sampleExternals.aesgcmEncrypt (List.range 12)
      [1, 2, 3, 4] (List.replicate 68 0) ch ss (List.replicate 32 4) with
  | error e =>
      exfalso
      simp [composeReply, composeServerHello, sampleExternals] at hrep
  | ok rep =>
      refine ⟨ch, ss, rep, hch, hrep, ?_⟩
      have := hA (List.replicate 32 4) (List.range 12) [1, 2, 3, 4]
        (List.replicate 68 0) rep sampleConn hrep
      rw [hfin] at this ⊢
      simpa [sampleConn] using this

/-! ### Claim C9 -/

/-- C9: whenever `PrepareConnection` succeeds, the parsed session id has
length exactly 32 — forced by the 64-byte ciphertext check over
session-id ++ 32-byte key-share — so the Reply Composer's fixed
session-id-length byte `0x20` (offset 38 of the ServerHello) matches the
echoed session id (offsets 39..70) in every reply composed for that
ClientHello. -/
theorem c9_sessionid_32 {PubKey PrivKey : Type}
    (E : Externals PubKey PrivKey) (pkt : List Nat) (sta : SrvState PrivKey)
    (conn : Conn) (info : ClientInfo) (fin : Finisher) (ch : ClientHello)
    (hch : parseClientHello pkt = .ok ch)
    (hok : (PrepareConnection E pkt sta conn).1 = .ok (info, fin)) :
    ch.sessionId.length = 32 ∧
    (∀ aead nonce pad4 sharedSecret sessionKey ek sh,
      aead nonce sharedSecret sessionKey = .ok ek →
      composeServerHello aead nonce pad4 ch.sessionId sharedSecret
        sessionKey = .ok sh →
      nonce.length = 12 → ek.length = 48 →
      (sh.drop 38).take 1 = [0x20] ∧ (sh.drop 39).take 32 = ch.sessionId) := by
  obtain ⟨ch', ai, hch', _, hun, _, _, _⟩ := PrepareConnection_ok_inv hok
  rw [hch] at hch'
  injection hch' with hch'
  subst hch'
  have hsid := unmarshalClientHello_none_sid hun
  refine ⟨hsid, ?_⟩
  intro aead nonce pad4 sharedSecret sessionKey ek sh hek hsh hn hlen
  rw [composeServerHello_decomp hek] at hsh
  injection hsh with hsh
  subst hsh
  have hA : nonce.take 12 = nonce := List.take_of_length_le (by omega)
  have h12 : (nonce.take 12).length = 12 := by rw [hA, hn]
  have hpre : ([0x02, 0x00, 0x00, 0x76, 0x03, 0x03] : List Nat).length = 6 := rfl
  have hB : (ek.take 20).length = 20 := by
    simp only [List.length_take, hlen]
    omega
  constructor
  · rw [show (38 : Nat) = 6 + 12 + 20 from by norm_num]
    simp only [← List.drop_drop]
    rw [List.drop_left' hpre, List.append_assoc, List.drop_left' h12,
      List.drop_left' hB]
    rfl
  · rw [show (39 : Nat) = 6 + 12 + 20 + 1 from by norm_num]
    simp only [← List.drop_drop]
    rw [List.drop_left' hpre, List.append_assoc, List.drop_left' h12,
      List.drop_left' hB,
      List.drop_left' (show ([0x20] : List Nat).length = 1 from rfl)]
    exact List.take_left' hsid

set_option maxRecDepth 100000 in
/-- Witness for C9: the sample success configuration, with the sample
AEAD composing the reply for the parsed 32-byte session id. -/
theorem c9_sessionid_32_witness :
    sampleChSid32.sessionId.length = 32 ∧
    ∃ sh, composeServerHello sampleAead (List.range 12) [1, 2, 3, 4]
        sampleChSid32.sessionId [] [] = .ok sh ∧
      (sh.drop 38).take 1 = [0x20] ∧
      (sh.drop 39).take 32 = sampleChSid32.sessionId := by
  have h := c9_sessionid_32 sampleExternals samplePkt sampleState sampleConn
    ⟨0⟩ (mkFinisher sampleExternals sampleChSid32 (List.replicate 32 5))
    sampleChSid32 (by rfl) (by rfl)
  refine ⟨h.1, _, rfl, ?_⟩
  exact h.2 sampleAead (List.range 12) [1, 2, 3, 4] [] [] sampleEK48 _ rfl rfl
    (by decide) (by decide)

end Cloak
